import Mathlib

/-!
Verification of the expense-tracker data layer of this repository
(src/main.py): the SQLite-backed `expenses` table and the operations
`init_db`, `add_expense`, `list_expenses`, `summarize`, and the
`categories` resource.

Embedding conventions:
* The `expenses` table is a `DB`: a list of rows in insertion order plus the
  next AUTOINCREMENT id.  `id INTEGER PRIMARY KEY AUTOINCREMENT` assigns
  `nextId` to a fresh row and bumps the counter; a `DELETE` never lowers it.
* `amount REAL` is modelled as an exact number (`Int`); the claims under
  study concern exact field round-trips and sum/count aggregation, not
  floating-point rounding.
* SQLite compares `TEXT` values bytewise (memcmp); on the `.data` char list
  of a Lean `String` this is the lexicographic order `List Char` carries,
  so `date BETWEEN ? AND ?` becomes `strLe` below.
* Each tool body runs inside `try/except`; a storage-level exception is
  modelled by an injected `fault : Option DbError` (`none` = the statement
  succeeded, `some e` = the underlying driver raised `e`).  The handler
  functions are total: their codomain is a response envelope, so nothing
  can propagate.
-/

/-- One row of the `expenses` table (src/main.py lines 32-41). -/
structure Expense where
  id : Nat
  date : String
  amount : Int
  category : String
  subcategory : String
  note : String
deriving DecidableEq

/-- The state of the `expenses` table: rows in insertion order and the next
AUTOINCREMENT id. -/
structure DB where
  rows : List Expense
  nextId : Nat
deriving DecidableEq

/-- Well-formedness of a reachable store: every stored id was assigned
before the current AUTOINCREMENT counter. -/
def DB.WF (db : DB) : Prop := ∀ r ∈ db.rows, r.id < db.nextId

instance (db : DB) : Decidable (DB.WF db) :=
  List.decidableBAll _ db.rows

/-- Bytewise (lexicographic) `TEXT` comparison used by SQLite for
`date BETWEEN ? AND ?`: order on the character lists. -/
def strLe (a b : String) : Prop := a.data ≤ b.data

/-- Strict bytewise `TEXT` comparison. -/
def strLt (a b : String) : Prop := a.data < b.data

instance : DecidableRel strLe := fun a b =>
  inferInstanceAs (Decidable (a.data ≤ b.data))

instance : DecidableRel strLt := fun a b =>
  inferInstanceAs (Decidable (a.data < b.data))

/-- `WHERE date BETWEEN ? AND ?` (src/main.py line 87): inclusive bounds,
lexical comparison. -/
def rowsInRange (db : DB) (s e : String) : List Expense :=
  db.rows.filter (fun r => decide (strLe s r.date) && decide (strLe r.date e))

/-- `ORDER BY date DESC, id DESC` (src/main.py line 88): `a` may come before
`b` iff `a`'s date is lexically greater, or the dates tie and `a`'s id is
not smaller. -/
def expBefore (a b : Expense) : Prop :=
  b.date.data < a.date.data ∨ (a.date.data = b.date.data ∧ b.id ≤ a.id)

instance : DecidableRel expBefore := fun a b =>
  inferInstanceAs (Decidable (_ ∨ _))

instance : IsTotal Expense expBefore where
  total a b := by
    rcases lt_trichotomy a.date.data b.date.data with h | h | h
    · exact Or.inr (Or.inl h)
    · rcases le_total a.id b.id with h' | h'
      · exact Or.inr (Or.inr ⟨h.symm, h'⟩)
      · exact Or.inl (Or.inr ⟨h, h'⟩)
    · exact Or.inl (Or.inl h)

instance : IsTrans Expense expBefore where
  trans a b c hab hbc := by
    rcases hab with h1 | ⟨h1, h1'⟩ <;> rcases hbc with h2 | ⟨h2, h2'⟩
    · exact Or.inl (lt_trans h2 h1)
    · exact Or.inl (by rw [← h2]; exact h1)
    · exact Or.inl (by rw [h1]; exact h2)
    · exact Or.inr ⟨h1.trans h2, le_trans h2' h1'⟩

/-- The result set of the `SELECT` in `list_expenses` (src/main.py
lines 83-91): rows in the inclusive date range, sorted by date descending
then id descending. -/
def listExpensesQuery (db : DB) (s e : String) : List Expense :=
  List.insertionSort expBefore (rowsInRange db s e)

/-- An exception raised by the storage driver inside a tool body.
`operational` is `aiosqlite.OperationalError` (caught separately by
`add_expense`); `other` is any other `Exception`. -/
inductive DbError where
  | operational (msg : String)
  | other (msg : String)
deriving DecidableEq

/-- `str(e)` of the raised exception. -/
def DbError.str : DbError → String
  | .operational m => m
  | .other m => m

/-- Python `str.lower()` on the message characters. -/
def lowerChars (s : String) : List Char := s.data.map Char.toLower

/-- Python's substring test `needle in hay`. -/
def containsSub (needle : List Char) : List Char → Bool
  | [] => needle.isEmpty
  | c :: t => needle.isPrefixOf (c :: t) || containsSub needle t

/-- The read-only test in `add_expense` (src/main.py lines 69-70):
`"readonly" in str(e).lower()`. -/
def readonlyIndicated (m : String) : Bool :=
  containsSub "readonly".data (lowerChars m)

/-- The dedicated read-only message (src/main.py line 71). -/
def readonlyMessage : String := "Database is read-only. Check file permissions."

/-- Response envelope of `add_expense`: either
`status success, id, message` or `status error, message`. -/
inductive AddResult where
  | success (id : Nat) (message : String)
  | error (message : String)
deriving DecidableEq

/-- Whether an `add_expense` envelope has `status` equal to `error`. -/
def AddResult.isError : AddResult → Bool
  | .error _ => true
  | .success _ _ => false

/-- The `INSERT INTO expenses(...) VALUES (?,?,?,?,?)` statement
(src/main.py lines 61-64): append a fresh row, return `cur.lastrowid`. -/
def insertExpense (db : DB) (d : String) (a : Int) (c sc n : String) : DB × Nat :=
  (⟨db.rows ++ [⟨db.nextId, d, a, c, sc, n⟩], db.nextId + 1⟩, db.nextId)

/-- The `add_expense` tool (src/main.py lines 57-74).  On a fault the
transaction is not committed, so the store is unchanged and the matching
`except` clause shapes the error envelope. -/
def addExpense (db : DB) (d : String) (a : Int) (c sc n : String)
    (fault : Option DbError) : DB × AddResult :=
  match fault with
  | none =>
      let r := insertExpense db d a c sc n
      (r.1, .success r.2 "Expense added successfully")
  | some (.operational m) =>
      if readonlyIndicated m then (db, .error readonlyMessage)
      else (db, .error ("Database operational error: " ++ m))
  | some (.other m) => (db, .error ("Unexpected error: " ++ m))

/-- Response envelope of `list_expenses`. -/
inductive ListResult where
  | success (expenses : List Expense)
  | error (message : String)
deriving DecidableEq

/-- Whether a `list_expenses` envelope has `status` equal to `error`. -/
def ListResult.isError : ListResult → Bool
  | .error _ => true
  | .success _ => false

/-- The `list_expenses` tool (src/main.py lines 78-95). -/
def listExpenses (db : DB) (s e : String) (fault : Option DbError) : ListResult :=
  match fault with
  | none => .success (listExpensesQuery db s e)
  | some err => .error ("Error listing expenses: " ++ err.str)

/-- One group of the `summarize` result:
`SELECT category, SUM(amount) AS total_amount, COUNT(*) as count`. -/
structure SummaryRow where
  category : String
  total_amount : Int
  count : Nat
deriving DecidableEq

/-- `AND category = ?` (src/main.py line 113): the rows of one category. -/
def catFilter (rows : List Expense) (c : String) : List Expense :=
  rows.filter (fun r => decide (r.category = c))

/-- The aggregate row `GROUP BY category` produces for category `c`. -/
def groupFor (rows : List Expense) (c : String) : SummaryRow :=
  ⟨c, ((catFilter rows c).map Expense.amount).sum, (catFilter rows c).length⟩

/-- `GROUP BY category` (src/main.py line 116): one aggregate row per
distinct category of the filtered rows. -/
def groupRows (rows : List Expense) : List SummaryRow :=
  ((rows.map Expense.category).dedup).map (groupFor rows)

/-- `ORDER BY total_amount DESC`. -/
def sumGE (a b : SummaryRow) : Prop := b.total_amount ≤ a.total_amount

instance : DecidableRel sumGE := fun a b =>
  inferInstanceAs (Decidable (_ ≤ _))

/-- The result set of the `summarize` query (src/main.py lines 105-118).
The `AND category = ?` clause is appended only when the Python argument is
truthy (`if category:`), i.e. present and non-empty. -/
def summarizeRows (db : DB) (s e : String) (cat : Option String) : List SummaryRow :=
  List.insertionSort sumGE (groupRows (match cat with
    | some c => if c = "" then rowsInRange db s e else catFilter (rowsInRange db s e) c
    | none => rowsInRange db s e))

/-- Response envelope of `summarize`. -/
inductive SummarizeResult where
  | success (summary : List SummaryRow)
  | error (message : String)
deriving DecidableEq

/-- Whether a `summarize` envelope has `status` equal to `error`. -/
def SummarizeResult.isError : SummarizeResult → Bool
  | .error _ => true
  | .success _ => false

/-- The `summarize` tool (src/main.py lines 99-122). -/
def summarize (db : DB) (s e : String) (cat : Option String)
    (fault : Option DbError) : SummarizeResult :=
  match fault with
  | none => .success (summarizeRows db s e cat)
  | some err => .error ("Error summarizing expenses: " ++ err.str)

/-- `init_db` (src/main.py lines 26-52) run against a store that already
holds rows: `CREATE TABLE IF NOT EXISTS` leaves the existing table as is,
the write self-test inserts a throwaway row
`('2000-01-01', 0, 'test')`, and then `DELETE FROM expenses WHERE
category = 'test'` removes every row whose category is `'test'` — the
throwaway row, but also any previously stored row with that category.
The AUTOINCREMENT counter is not reset by the delete. -/
def initDb (db : DB) : DB :=
  let db1 : DB := ⟨db.rows ++ [⟨db.nextId, "2000-01-01", 0, "test", "", ""⟩], db.nextId + 1⟩
  ⟨db1.rows.filter (fun r => decide (r.category ≠ "test")), db1.nextId⟩

/-- The built-in category list (src/main.py lines 128-141). -/
def defaultCategories : List String :=
  ["Food & Dining", "Transportation", "Shopping", "Entertainment",
   "Bills & Utilities", "Healthcare", "Travel", "Education", "Business", "Other"]

/-- What the `categories` resource serializes: the raw file contents, the
JSON dump of the built-in object, or the JSON error object of the
`except` branch. -/
inductive CategoriesResult where
  | content (raw : String)
  | defaults (cats : List String)
  | errorOut (msg : String)
deriving DecidableEq

/-- Whether the `categories` resource answered with the error object. -/
def CategoriesResult.isErrorOut : CategoriesResult → Bool
  | .errorOut _ => true
  | _ => false

/-- src/main.py line 145: `async with await asyncio.to_thread(open, ...)`.
The value produced is the synchronous file object returned by `open`
(`io.TextIOWrapper`), which does not implement the asynchronous context
manager protocol (`__aenter__`/`__aexit__`), so entering the `async with`
raises `TypeError` before any read happens, whatever the file holds. -/
def asyncWithOpen (_contents : String) : Except String String :=
  Except.error "TypeError: TextIOWrapper does not support the asynchronous context manager protocol"

/-- The `categories` resource (src/main.py lines 126-150), as a function of
the optional external file: `some contents` when `os.path.exists` is true,
`none` otherwise. -/
def categories (file : Option String) : CategoriesResult :=
  match file with
  | some contents =>
      match asyncWithOpen contents with
      | .ok raw => .content raw
      | .error e => .errorOut ("Could not load categories: " ++ e)
  | none => .defaults defaultCategories

/-! ## General lemmas about the query embedding -/

/-- Membership in the `list_expenses` result set: exactly the stored rows
whose date lies lexically within the inclusive bounds. -/
theorem mem_listExpensesQuery {db : DB} {s e : String} {r : Expense} :
    r ∈ listExpensesQuery db s e ↔ r ∈ db.rows ∧ strLe s r.date ∧ strLe r.date e := by
  unfold listExpensesQuery rowsInRange
  rw [(List.perm_insertionSort expBefore _).mem_iff, List.mem_filter]
  simp [decide_eq_true_iff]

/-! ## C4 -/

/-- C4: the claim that a second storage initialization leaves every
previously stored row unchanged, including rows of category `test`, fails
on the code: evaluated on a store holding the single row
`(id 1, date 2024-01-01, amount 5, category test)`, `init_db`'s self-test
cleanup `DELETE FROM expenses WHERE category = 'test'` deletes that
pre-existing row, leaving the table empty. -/
theorem init_db_deletes_existing_test_rows :
    (DB.mk [⟨1, "2024-01-01", 5, "test", "", ""⟩] 2).rows
      = [⟨1, "2024-01-01", 5, "test", "", ""⟩]
    ∧ (initDb (DB.mk [⟨1, "2024-01-01", 5, "test", "", ""⟩] 2)).rows = [] := by
  exact ⟨rfl, rfl⟩

/-! ## C5 -/

/-- C5: the claim that an existing readable categories file is returned
verbatim fails on the code: for every file contents, the `async with` on
the synchronous file object raises `TypeError`, the `except` branch
catches it, and the resource answers with the JSON error object instead of
the contents. -/
theorem categories_existing_file_hits_error_branch (contents : String) :
    categories (some contents)
      = CategoriesResult.errorOut
          ("Could not load categories: TypeError: TextIOWrapper does not support the asynchronous context manager protocol")
    ∧ (categories (some contents)).isErrorOut = true := by
  exact ⟨rfl, rfl⟩

/-! ## C7 -/

/-- C7: every exception raised inside the body of `add_expense`,
`list_expenses` or `summarize` is caught by the handler, which returns a
`status error` envelope with a message; the handlers are total functions
into the envelope type, so no exception propagates to the caller. -/
theorem handlers_catch_every_fault (db : DB) (d : String) (a : Int)
    (c sc n s e : String) (cat : Option String) (err : DbError) :
    ((addExpense db d a c sc n (some err)).2).isError = true
    ∧ (listExpenses db s e (some err)).isError = true
    ∧ (summarize db s e cat (some err)).isError = true := by
  refine ⟨?_, rfl, rfl⟩
  cases err with
  | operational m =>
      unfold addExpense
      cases h : readonlyIndicated m <;> simp [h, AddResult.isError]
  | other m => rfl

/-! ## C8 -/

/-- C8: when an insert fails with an operational error whose message
indicates the store is read-only (`"readonly" in str(e).lower()`),
`add_expense` returns `status error` with exactly the dedicated message
`Database is read-only. Check file permissions.` and not the generic
operational-error message. -/
theorem add_expense_readonly_detection (db : DB) (d : String) (a : Int)
    (c sc n m : String) (h : readonlyIndicated m = true) :
    (addExpense db d a c sc n (some (DbError.operational m))).2
      = AddResult.error readonlyMessage := by
  unfold addExpense
  simp [h]

/-- Witness for C8 at the concrete SQLite message
`attempt to write a readonly database`. -/
theorem add_expense_readonly_detection_witness :
    readonlyIndicated "attempt to write a readonly database" = true
    ∧ (addExpense (DB.mk [] 1) "2024-01-05" 42 "Food & Dining" "" ""
        (some (DbError.operational "attempt to write a readonly database"))).2
      = AddResult.error readonlyMessage :=
  ⟨by decide,
   add_expense_readonly_detection (DB.mk [] 1) "2024-01-05" 42 "Food & Dining" "" ""
     "attempt to write a readonly database" (by decide)⟩

/-! ## C9 -/

/-- C9: with no override file present, the `categories` resource returns
the JSON object whose `categories` field is exactly the built-in ten-item
list, in its defined order. -/
theorem categories_default_fallback :
    categories none = CategoriesResult.defaults
      ["Food & Dining", "Transportation", "Shopping", "Entertainment",
       "Bills & Utilities", "Healthcare", "Travel", "Education", "Business", "Other"] := rfl

/-! ## C10 -/

/-- C10: calling `summarize` with the empty string as category returns the
same result as calling it with no category argument, because the
`AND category = ?` clause is only appended when the argument is truthy
(`if category:`) and the empty string is falsy. -/
theorem summarize_empty_category_is_no_filter (db : DB) (s e : String)
    (fault : Option DbError) :
    summarize db s e (some "") fault = summarize db s e none fault := rfl

/-! ## C1 -/

/-- C1: inserting an expense via `add_expense` and then calling
`list_expenses` on an inclusive range containing its date returns a record
whose date, amount, category, subcategory and note equal the inserted
values, whose id is the freshly assigned AUTOINCREMENT value reported in
the success envelope, and whose id differs from the id of every previously
stored row. -/
theorem add_then_list_roundtrip (db : DB) (hwf : DB.WF db)
    (d : String) (a : Int) (c sc n s e : String)
    (hs : strLe s d) (he : strLe d e) :
    (addExpense db d a c sc n none).2
      = AddResult.success db.nextId "Expense added successfully"
    ∧ ∃ r ∈ listExpensesQuery (addExpense db d a c sc n none).1 s e,
        r.date = d ∧ r.amount = a ∧ r.category = c ∧ r.subcategory = sc
        ∧ r.note = n ∧ r.id = db.nextId ∧ ∀ old ∈ db.rows, old.id ≠ r.id := by
  refine ⟨rfl, ⟨db.nextId, d, a, c, sc, n⟩, ?_, rfl, rfl, rfl, rfl, rfl, rfl, ?_⟩
  · rw [mem_listExpensesQuery]
    refine ⟨?_, hs, he⟩
    show _ ∈ db.rows ++ [_]
    simp
  · intro old hold
    exact Nat.ne_of_lt (hwf old hold)

/-- Witness for C1: the spec scenario — first insert into an empty store
gets id 1 and round-trips through a January range query. -/
theorem add_then_list_roundtrip_witness :
    DB.WF (DB.mk [] 1)
    ∧ strLe "2024-01-01" "2024-01-05" ∧ strLe "2024-01-05" "2024-01-31"
    ∧ ((addExpense (DB.mk [] 1) "2024-01-05" 42 "Food & Dining" "" "lunch" none).2
        = AddResult.success 1 "Expense added successfully"
      ∧ ∃ r ∈ listExpensesQuery
            (addExpense (DB.mk [] 1) "2024-01-05" 42 "Food & Dining" "" "lunch" none).1
            "2024-01-01" "2024-01-31",
          r.date = "2024-01-05" ∧ r.amount = 42 ∧ r.category = "Food & Dining"
          ∧ r.subcategory = "" ∧ r.note = "lunch" ∧ r.id = 1
          ∧ ∀ old ∈ (DB.mk [] 1).rows, old.id ≠ r.id) :=
  ⟨by decide, by decide, by decide,
   add_then_list_roundtrip (DB.mk [] 1) (by decide) "2024-01-05" 42 "Food & Dining"
     "" "lunch" "2024-01-01" "2024-01-31" (by decide) (by decide)⟩

/-! ## C6 -/

/-- C6: membership in a `list_expenses` result is governed by the inclusive
lexical comparison `start_date <= date <= end_date` on the raw character
lists (`strLe`), not by calendar arithmetic.  In particular a stored row
dated exactly `start_date` or exactly `end_date` of a range is returned,
and a stored row lexically outside either bound is not. -/
theorem list_expenses_inclusive_lexical_bounds (db : DB) (s e : String) (r : Expense) :
    (r ∈ listExpensesQuery db s e ↔ r ∈ db.rows ∧ strLe s r.date ∧ strLe r.date e)
    ∧ (r ∈ db.rows → strLe s e → (r.date = s ∨ r.date = e) → r ∈ listExpensesQuery db s e)
    ∧ ((strLt r.date s ∨ strLt e r.date) → r ∉ listExpensesQuery db s e) := by
  refine ⟨mem_listExpensesQuery, ?_, ?_⟩
  · intro hr hse hbound
    rw [mem_listExpensesQuery]
    rcases hbound with h | h
    · exact ⟨hr, by rw [h]; exact le_refl _, by rw [h]; exact hse⟩
    · exact ⟨hr, by rw [h]; exact hse, by rw [h]; exact le_refl _⟩
  · intro h hmem
    rw [mem_listExpensesQuery] at hmem
    rcases h with h | h
    · exact absurd hmem.2.1 (not_le_of_lt h)
    · exact absurd hmem.2.2 (not_le_of_lt h)

/-- Witness for C6: a row dated exactly on the start bound of a valid range
is returned by the query. -/
theorem list_expenses_inclusive_lexical_bounds_witness :
    (⟨1, "2024-01-01", 7, "A", "", ""⟩ : Expense) ∈ (DB.mk [⟨1, "2024-01-01", 7, "A", "", ""⟩] 2).rows
    ∧ strLe "2024-01-01" "2024-01-31"
    ∧ ((⟨1, "2024-01-01", 7, "A", "", ""⟩ : Expense).date = "2024-01-01"
        ∨ (⟨1, "2024-01-01", 7, "A", "", ""⟩ : Expense).date = "2024-01-31")
    ∧ (⟨1, "2024-01-01", 7, "A", "", ""⟩ : Expense)
        ∈ listExpensesQuery (DB.mk [⟨1, "2024-01-01", 7, "A", "", ""⟩] 2) "2024-01-01" "2024-01-31" :=
  ⟨by decide, by decide, by decide,
   (list_expenses_inclusive_lexical_bounds (DB.mk [⟨1, "2024-01-01", 7, "A", "", ""⟩] 2)
       "2024-01-01" "2024-01-31" ⟨1, "2024-01-01", 7, "A", "", ""⟩).2.1
     (by decide) (by decide) (by decide)⟩

/-! ## C3 -/

/-- C3: in a `list_expenses` result, of two returned rows the one appearing
earlier has the lexically greater date, or the same date and the greater
(later-assigned) id.  The id hypothesis holds in every reachable store
since ids are unique. -/
theorem list_expenses_ordering (db : DB)
    (hnd : (db.rows.map Expense.id).Nodup) (s e : String)
    (i j : Nat) (ri rj : Expense) (hij : i < j)
    (hri : (listExpensesQuery db s e)[i]? = some ri)
    (hrj : (listExpensesQuery db s e)[j]? = some rj) :
    strLt rj.date ri.date ∨ (ri.date = rj.date ∧ rj.id < ri.id) := by
  obtain ⟨hi, hgi⟩ := List.getElem?_eq_some.mp hri
  obtain ⟨hj, hgj⟩ := List.getElem?_eq_some.mp hrj
  have hsorted : List.Sorted expBefore (listExpensesQuery db s e) :=
    List.sorted_insertionSort expBefore (rowsInRange db s e)
  have hrel := hsorted.rel_get_of_lt (a := ⟨i, hi⟩) (b := ⟨j, hj⟩) hij
  rw [List.get_eq_getElem, List.get_eq_getElem] at hrel
  simp only [hgi, hgj] at hrel
  have hnd2 : ((listExpensesQuery db s e).map Expense.id).Nodup := by
    unfold listExpensesQuery
    rw [((List.perm_insertionSort expBefore (rowsInRange db s e)).map Expense.id).nodup_iff]
    unfold rowsInRange
    exact List.Nodup.sublist ((List.filter_sublist db.rows).map Expense.id) hnd
  have hne : rj.id ≠ ri.id := by
    intro hEq
    have hlen : i < ((listExpensesQuery db s e).map Expense.id).length := by
      simpa using hi
    have hlen' : j < ((listExpensesQuery db s e).map Expense.id).length := by
      simpa using hj
    have hget : ((listExpensesQuery db s e).map Expense.id).get ⟨i, hlen⟩
        = ((listExpensesQuery db s e).map Expense.id).get ⟨j, hlen'⟩ := by
      rw [List.get_eq_getElem, List.get_eq_getElem, List.getElem_map, List.getElem_map,
        hgi, hgj, hEq]
    have := (hnd2.get_inj_iff).mp hget
    exact absurd (Fin.val_eq_of_eq this) (Nat.ne_of_lt hij)
  rcases hrel with h | ⟨hdate, hle⟩
  · exact Or.inl h
  · exact Or.inr ⟨congrArg String.mk hdate, Nat.lt_of_le_of_ne hle hne⟩

/-- Witness for C3: two rows with the same date; the query returns the
later-inserted id 2 at position 0 and id 1 at position 1. -/
theorem list_expenses_ordering_witness :
    ((DB.mk [⟨1, "2024-01-05", 2, "A", "", ""⟩, ⟨2, "2024-01-05", 3, "B", "", ""⟩] 3).rows.map
        Expense.id).Nodup
    ∧ (0 : Nat) < 1
    ∧ (listExpensesQuery
        (DB.mk [⟨1, "2024-01-05", 2, "A", "", ""⟩, ⟨2, "2024-01-05", 3, "B", "", ""⟩] 3)
        "2024-01-01" "2024-01-31")[0]? = some ⟨2, "2024-01-05", 3, "B", "", ""⟩
    ∧ (listExpensesQuery
        (DB.mk [⟨1, "2024-01-05", 2, "A", "", ""⟩, ⟨2, "2024-01-05", 3, "B", "", ""⟩] 3)
        "2024-01-01" "2024-01-31")[1]? = some ⟨1, "2024-01-05", 2, "A", "", ""⟩
    ∧ (strLt (⟨1, "2024-01-05", 2, "A", "", ""⟩ : Expense).date
          (⟨2, "2024-01-05", 3, "B", "", ""⟩ : Expense).date
        ∨ ((⟨2, "2024-01-05", 3, "B", "", ""⟩ : Expense).date
              = (⟨1, "2024-01-05", 2, "A", "", ""⟩ : Expense).date
            ∧ (⟨1, "2024-01-05", 2, "A", "", ""⟩ : Expense).id
              < (⟨2, "2024-01-05", 3, "B", "", ""⟩ : Expense).id)) :=
  ⟨by decide, by decide, by decide, by decide,
   list_expenses_ordering
     (DB.mk [⟨1, "2024-01-05", 2, "A", "", ""⟩, ⟨2, "2024-01-05", 3, "B", "", ""⟩] 3)
     (by decide) "2024-01-01" "2024-01-31" 0 1
     ⟨2, "2024-01-05", 3, "B", "", ""⟩ ⟨1, "2024-01-05", 2, "A", "", ""⟩
     (by decide) (by decide) (by decide)⟩

/-! ## C2 -/

/-- Splitting a mapped sum along a Boolean filter. -/
theorem sum_map_filter_add (p : Expense → Bool) (l : List Expense) :
    ((l.filter p).map Expense.amount).sum
      + ((l.filter (fun x => !p x)).map Expense.amount).sum
      = (l.map Expense.amount).sum := by
  induction l with
  | nil => rfl
  | cons a t ih =>
    cases hpa : p a with
    | true =>
        simp [List.filter_cons, hpa]
        omega
    | false =>
        simp [List.filter_cons, hpa]
        omega

/-- Fibrewise decomposition of the amount sum: summing, over a duplicate-free
list of categories covering all rows, the per-category filtered sums gives
the total sum. -/
theorem sum_catFilter_fibers (cs : List String) (rows : List Expense)
    (hnd : cs.Nodup) (hcov : ∀ r ∈ rows, r.category ∈ cs) :
    (cs.map (fun c => ((catFilter rows c).map Expense.amount).sum)).sum
      = (rows.map Expense.amount).sum := by
  induction cs generalizing rows with
  | nil =>
    have hrows : rows = [] :=
      List.eq_nil_iff_forall_not_mem.mpr (fun r hr => by simpa using hcov r hr)
    rw [hrows]
    rfl
  | cons c cs ih =>
    have hc : c ∉ cs := (List.nodup_cons.mp hnd).1
    have hnd' : cs.Nodup := (List.nodup_cons.mp hnd).2
    have hkey : ∀ c' ∈ cs,
        catFilter rows c'
          = catFilter (rows.filter (fun r => !decide (r.category = c))) c' := by
      intro c' hc'
      unfold catFilter
      rw [List.filter_filter]
      refine List.filter_congr ?_
      intro r _
      cases hrc : decide (r.category = c') with
      | true =>
          have : r.category = c' := of_decide_eq_true hrc
          have hne : ¬ r.category = c := by
            rw [this]
            intro hcc
            exact hc (hcc ▸ hc')
          simp [hne]
      | false => simp
    have hcov' : ∀ r ∈ rows.filter (fun r => !decide (r.category = c)), r.category ∈ cs := by
      intro r hr
      rw [List.mem_filter] at hr
      have h2 : ¬ r.category = c := by
        have := hr.2
        simpa using this
      rcases List.mem_cons.mp (hcov r hr.1) with h | h
      · exact absurd h h2
      · exact h
    rw [List.map_cons, List.sum_cons,
      List.map_congr_left (fun c' hc' => congrArg List.sum
        (congrArg (List.map Expense.amount) (hkey c' hc'))),
      ih (rows.filter (fun r => !decide (r.category = c))) hnd' hcov']
    exact sum_map_filter_add (fun r => decide (r.category = c)) rows

/-- Membership in the grouped rows. -/
theorem mem_groupRows {rows : List Expense} {g : SummaryRow} :
    g ∈ groupRows rows ↔ ∃ c ∈ (rows.map Expense.category).dedup, g = groupFor rows c := by
  unfold groupRows
  rw [List.mem_map]
  constructor
  · rintro ⟨c, hc, rfl⟩
    exact ⟨c, hc, rfl⟩
  · rintro ⟨c, hc, rfl⟩
    exact ⟨c, hc, rfl⟩

/-- A duplicate-free list whose elements are all equal has at most one
element. -/
theorem length_le_one_of_nodup_of_all_eq {α : Type} {l : List α} {c : α}
    (hnd : l.Nodup) (hall : ∀ x ∈ l, x = c) : l.length ≤ 1 := by
  match l with
  | [] => simp
  | [a] => simp
  | a :: b :: t =>
    exfalso
    have ha : a = c := hall a (by simp)
    have hb : b = c := hall b (by simp)
    have : a ∉ b :: t := (List.nodup_cons.mp hnd).1
    exact this (by rw [ha, ← hb]; simp)

/-- C2 (amended): for every fixed date range, the sum of `total_amount`
across the groups returned by `summarize` equals the sum of `amount` over
all stored expenses whose date lies in the range; each group's `count`
equals the number of rows of that category in the range; and supplying a
non-empty category argument (the only kind the code treats as a filter,
since `if category:` is false for the empty string) restricts the result
to at most one group, the one matching that label. -/
theorem summarize_aggregate_correct (db : DB) (s e : String) :
    (((summarizeRows db s e none).map SummaryRow.total_amount).sum
        = ((rowsInRange db s e).map Expense.amount).sum)
    ∧ (∀ g ∈ summarizeRows db s e none,
        g.count = (catFilter (rowsInRange db s e) g.category).length)
    ∧ (∀ c : String, c ≠ "" →
        (summarizeRows db s e (some c)).length ≤ 1
        ∧ ∀ g ∈ summarizeRows db s e (some c), g.category = c) := by
  refine ⟨?_, ?_, ?_⟩
  · unfold summarizeRows
    rw [((List.perm_insertionSort sumGE (groupRows (rowsInRange db s e))).map
      SummaryRow.total_amount).sum_eq]
    unfold groupRows
    rw [List.map_map]
    have hmap : (SummaryRow.total_amount ∘ groupFor (rowsInRange db s e))
        = fun c => ((catFilter (rowsInRange db s e) c).map Expense.amount).sum := rfl
    rw [hmap]
    exact sum_catFilter_fibers _ _ (List.nodup_dedup _)
      (fun r hr => List.mem_dedup.mpr (List.mem_map_of_mem Expense.category hr))
  · intro g hg
    unfold summarizeRows at hg
    rw [(List.perm_insertionSort sumGE _).mem_iff, mem_groupRows] at hg
    obtain ⟨c, _, rfl⟩ := hg
    rfl
  · intro c hc
    have hce : ¬ (c = "") := hc
    have hm : (match some c with
        | some c => if c = "" then rowsInRange db s e else catFilter (rowsInRange db s e) c
        | none => rowsInRange db s e) = catFilter (rowsInRange db s e) c := by
      show (if c = "" then rowsInRange db s e else catFilter (rowsInRange db s e) c) = _
      rw [if_neg hce]
    constructor
    · unfold summarizeRows
      rw [(List.perm_insertionSort sumGE _).length_eq, hm]
      unfold groupRows
      rw [List.length_map]
      refine length_le_one_of_nodup_of_all_eq (c := c) (List.nodup_dedup _) ?_
      intro x hx
      rw [List.mem_dedup, List.mem_map] at hx
      obtain ⟨r, hr, rfl⟩ := hx
      unfold catFilter at hr
      rw [List.mem_filter] at hr
      exact of_decide_eq_true hr.2
    · intro g hg
      unfold summarizeRows at hg
      rw [(List.perm_insertionSort sumGE _).mem_iff, hm, mem_groupRows] at hg
      obtain ⟨c', hc', rfl⟩ := hg
      rw [List.mem_dedup, List.mem_map] at hc'
      obtain ⟨r, hr, rfl⟩ := hc'
      unfold catFilter at hr
      rw [List.mem_filter] at hr
      exact of_decide_eq_true hr.2

/-- Counterexample to C2 as stated: with two stored expenses of categories
`A` and `B` both in range, supplying the category argument `""` does not
restrict the result to at most one group — the query returns two groups,
because `if category:` treats the empty string as absent. -/
theorem summarize_empty_category_argument_two_groups :
    (summarizeRows
        (DB.mk [⟨1, "2024-01-01", 1, "A", "", ""⟩, ⟨2, "2024-01-02", 1, "B", "", ""⟩] 3)
        "2024-01-01" "2024-01-02" (some "")).length = 2 := by decide

/-- Witness for the amended C2 at a concrete store and a non-empty
category label. -/
theorem summarize_aggregate_correct_witness :
    ("A" : String) ≠ ""
    ∧ ((summarizeRows
          (DB.mk [⟨1, "2024-01-01", 1, "A", "", ""⟩, ⟨2, "2024-01-02", 1, "B", "", ""⟩] 3)
          "2024-01-01" "2024-01-02" (some "A")).length ≤ 1
        ∧ ∀ g ∈ summarizeRows
            (DB.mk [⟨1, "2024-01-01", 1, "A", "", ""⟩, ⟨2, "2024-01-02", 1, "B", "", ""⟩] 3)
            "2024-01-01" "2024-01-02" (some "A"), g.category = "A") :=
  ⟨by decide,
   (summarize_aggregate_correct
       (DB.mk [⟨1, "2024-01-01", 1, "A", "", ""⟩, ⟨2, "2024-01-02", 1, "B", "", ""⟩] 3)
       "2024-01-01" "2024-01-02").2.2 "A" (by decide)⟩
